import Mathlib

/-!
Shallow embedding of the Portfolio Tracker core logic.

Sources:
* `src/unnamed/part_000` — date helpers (`getDaysInMonth`, `getFirstDayOfMonth`,
  `formatDateISO`, `formatPercentage`, `generateCalendarDays`) and the `App`
  component (`filteredTransactions`, `stats`, `getDayStats`,
  `window.deleteTransaction`, `handleSaveTransaction`).
* `src/unnamed/part_001` — `TradeModal` (`handleSubmit`).
* `src/types.ts` — `Transaction`, `TransactionType`, `StrategyType`, `ViewType`,
  `DayStats`.

Modelling conventions: JavaScript numbers are modelled as `ℚ`; the special
values `NaN`/`±Infinity` only arise in `formatPercentage`'s input, in
`parseFloat`'s output and in the `profitFactor` metric, where they are
modelled explicitly (`JSNum`, `ProfitFactor`).  A JavaScript `Date` is
modelled by its local calendar components `(year, month)` with `month`
0-based as returned by `getMonth()`; the proleptic Gregorian calendar rules
implemented by `Date` (month lengths via the day-0-of-next-month trick, and
`getDay()`'s weekday with 0 = Sunday) are embedded directly.
-/

/-! ## Data model (`src/types.ts`) -/

inductive TransactionType where
  | TRADE | DEPOSIT | WITHDRAWAL
deriving DecidableEq, Repr

inductive StrategyType where
  | DAY_TRADE | SWING | OPTIONS
deriving DecidableEq, Repr

/-- `ViewType = 'OVERVIEW' | StrategyType` -/
inductive ViewType where
  | OVERVIEW
  | strategy (s : StrategyType)
deriving DecidableEq, Repr

structure Transaction where
  id : String
  date : String
  type : TransactionType
  strategy : StrategyType
  amount : ℚ
  note : Option String
deriving DecidableEq, Repr

/-! ## Calendar arithmetic (`src/unnamed/part_000`, date helpers)

`getDaysInMonth` computes `new Date(y, m+1, 0).getDate()` and
`getFirstDayOfMonth` computes `new Date(y, m, 1).getDay()`.  Both are the
standard proleptic-Gregorian civil-calendar values, which we embed directly:
month lengths with the Gregorian leap rule, and the weekday of a date from
its day count since 0000-01-01 (a Saturday, weekday index 6). -/

def isLeapYear (y : Nat) : Bool :=
  (y % 4 == 0 && y % 100 != 0) || y % 400 == 0

/-- Length of 0-based month `m` (0 = January) in a year with leap flag
`leap`; months ≥ 12 never occur for a `Date`. -/
def monthLength (leap : Bool) (m : Nat) : Nat :=
  if m = 1 then (if leap then 29 else 28)
  else if m = 3 ∨ m = 5 ∨ m = 8 ∨ m = 10 then 30
  else 31

/-- Days in the months strictly before 0-based month `m`. -/
def daysBeforeMonth (leap : Bool) : Nat → Nat
  | 0 => 0
  | m + 1 => daysBeforeMonth leap m + monthLength leap m

/-- Gregorian leap years in `[0, y)` (year 0 itself is a leap year). -/
def leapYearsBefore (y : Nat) : Nat :=
  ((y + 3) / 4 + (y + 399) / 400) - (y + 99) / 100

/-- Day count of `(y, m, d)` (month 0-based, day 1-based) since 0000-01-01. -/
def daysFromCivil (y m d : Nat) : Nat :=
  365 * y + leapYearsBefore y + daysBeforeMonth (isLeapYear y) m + (d - 1)

/-- `Date.prototype.getDay`: weekday index, 0 = Sunday … 6 = Saturday.
0000-01-01 of the proleptic Gregorian calendar is a Saturday (index 6). -/
def dayOfWeek (y m d : Nat) : Nat :=
  (daysFromCivil y m d + 6) % 7

/-- `getDaysInMonth` (month 0-based, as `Date.getMonth()` yields it). -/
def getDaysInMonth (y m : Nat) : Nat :=
  monthLength (isLeapYear y) m

/-- `getFirstDayOfMonth`: weekday of day 1 of the month. -/
def getFirstDayOfMonth (y m : Nat) : Nat :=
  dayOfWeek y m 1

/-- `toString` of `n` left-padded with zeros to width `w`. -/
def padNum (w n : Nat) : String :=
  let s := toString n
  String.mk (List.replicate (w - s.length) '0') ++ s

/-- `formatDateISO`: the local-offset correction in the source makes
`toISOString().split('T')[0]` produce the *local* calendar date, i.e. the
canonical `YYYY-MM-DD` key of `(y, m, d)` (month 0-based). -/
def formatDateISO (y m d : Nat) : String :=
  padNum 4 y ++ "-" ++ padNum 2 (m + 1) ++ "-" ++ padNum 2 d

/-! ## Calendar grid (`generateCalendarDays`) -/

structure CalendarSlot where
  day : Option Nat
  dateStr : Option String
deriving DecidableEq, Repr

def blankSlot : CalendarSlot := { day := none, dateStr := none }

def generateCalendarDays (y m : Nat) : List CalendarSlot :=
  let daysInMonth := getDaysInMonth y m
  let firstDayOfWeek := getFirstDayOfMonth y m
  let days : List CalendarSlot :=
    List.replicate firstDayOfWeek blankSlot
      ++ (List.range daysInMonth).map
          (fun i => { day := some (i + 1), dateStr := some (formatDateISO y m (i + 1)) })
  let totalSlots := days.length
  let remainingSlots := 42 - totalSlots
  if remainingSlots < 7 then days ++ List.replicate remainingSlots blankSlot
  else days

/-- Trailing-blank count dictated by the spec's padding rule. -/
def trailingBlanks (y m : Nat) : Nat :=
  let total := getFirstDayOfMonth y m + getDaysInMonth y m
  if 42 - total < 7 then 42 - total else 0

theorem monthLength_le (leap : Bool) (m : Nat) : monthLength leap m ≤ 31 := by
  unfold monthLength
  split_ifs <;> omega

theorem getFirstDayOfMonth_lt (y m : Nat) : getFirstDayOfMonth y m < 7 :=
  Nat.mod_lt _ (by omega)

/-! ## Ledger aggregator (`stats` in `src/unnamed/part_000`) -/

/-- The running sums accumulated by the `forEach` pass of `stats`. -/
structure StatsAcc where
  investedCapital : ℚ
  netProfit : ℚ
  tradeCount : Nat
  grossProfit : ℚ
  grossLoss : ℚ
  winCount : Nat
  lossCount : Nat
deriving DecidableEq, Repr

/-- One iteration of the `forEach` body.  The source tests
`t.type === 'DEPOSIT'`, `'WITHDRAWAL'` and `'TRADE'` in three separate `if`s;
since the three types are mutually exclusive this is a single case split. -/
def statsStep (acc : StatsAcc) (t : Transaction) : StatsAcc :=
  match t.type with
  | .DEPOSIT => { acc with investedCapital := acc.investedCapital + t.amount }
  | .WITHDRAWAL => { acc with investedCapital := acc.investedCapital - t.amount }
  | .TRADE =>
    if t.amount > 0 then
      { acc with netProfit := acc.netProfit + t.amount, tradeCount := acc.tradeCount + 1,
                 grossProfit := acc.grossProfit + t.amount, winCount := acc.winCount + 1 }
    else if t.amount < 0 then
      { acc with netProfit := acc.netProfit + t.amount, tradeCount := acc.tradeCount + 1,
                 grossLoss := acc.grossLoss + |t.amount|, lossCount := acc.lossCount + 1 }
    else
      { acc with netProfit := acc.netProfit + t.amount, tradeCount := acc.tradeCount + 1 }

def statsAccOf (txs : List Transaction) : StatsAcc :=
  txs.foldl statsStep ⟨0, 0, 0, 0, 0, 0, 0⟩

/-- `profitFactor` is a JavaScript number that can be `Infinity`. -/
inductive ProfitFactor where
  | finite (q : ℚ)
  | posInf
deriving DecidableEq, Repr

/-- The record returned by the `stats` memo. -/
structure Stats where
  investedCapital : ℚ
  netProfit : ℚ
  portfolioValue : ℚ
  roi : ℚ
  winRate : ℚ
  tradeCount : Nat
  avgWin : ℚ
  avgLoss : ℚ
  profitFactor : ProfitFactor
deriving DecidableEq, Repr

/-- `stats`: the full aggregation (the source applies it to
`filteredTransactions`; the aggregate itself is a function of the list). -/
def stats (txs : List Transaction) : Stats :=
  let a := statsAccOf txs
  { investedCapital := a.investedCapital
    netProfit := a.netProfit
    portfolioValue := a.investedCapital + a.netProfit
    roi := if a.investedCapital ≠ 0 then a.netProfit / a.investedCapital * 100 else 0
    winRate := if a.tradeCount > 0 then (a.winCount : ℚ) / (a.tradeCount : ℚ) * 100 else 0
    tradeCount := a.tradeCount
    avgWin := if a.winCount > 0 then a.grossProfit / (a.winCount : ℚ) else 0
    avgLoss := if a.lossCount > 0 then a.grossLoss / (a.lossCount : ℚ) else 0
    profitFactor :=
      if a.grossLoss > 0 then .finite (a.grossProfit / a.grossLoss)
      else if a.grossProfit > 0 then .posInf
      else .finite 0 }

/-! Closed-form (list-level) descriptions of the seven accumulated sums,
used to relate the single-pass fold to the spec-level sums. -/

def capDelta (t : Transaction) : ℚ :=
  match t.type with
  | .DEPOSIT => t.amount
  | .WITHDRAWAL => -t.amount
  | .TRADE => 0

def tradeDelta (t : Transaction) : ℚ :=
  if t.type = .TRADE then t.amount else 0

def gpDelta (t : Transaction) : ℚ :=
  if t.type = .TRADE ∧ t.amount > 0 then t.amount else 0

def glDelta (t : Transaction) : ℚ :=
  if t.type = .TRADE ∧ t.amount < 0 then |t.amount| else 0

def isTradeB (t : Transaction) : Bool := t.type == .TRADE
def isWinB (t : Transaction) : Bool := t.type == .TRADE && t.amount > 0
def isLossB (t : Transaction) : Bool := t.type == .TRADE && t.amount < 0

def investedCapitalOf (txs : List Transaction) : ℚ := (txs.map capDelta).sum
def netProfitOf (txs : List Transaction) : ℚ := (txs.map tradeDelta).sum
def tradeCountOf (txs : List Transaction) : Nat := txs.countP isTradeB
def grossProfitOf (txs : List Transaction) : ℚ := (txs.map gpDelta).sum
def grossLossOf (txs : List Transaction) : ℚ := (txs.map glDelta).sum
def winCountOf (txs : List Transaction) : Nat := txs.countP isWinB
def lossCountOf (txs : List Transaction) : Nat := txs.countP isLossB

theorem statsStep_eq (acc : StatsAcc) (t : Transaction) :
    statsStep acc t =
      { investedCapital := acc.investedCapital + capDelta t
        netProfit := acc.netProfit + tradeDelta t
        tradeCount := acc.tradeCount + (if isTradeB t then 1 else 0)
        grossProfit := acc.grossProfit + gpDelta t
        grossLoss := acc.grossLoss + glDelta t
        winCount := acc.winCount + (if isWinB t then 1 else 0)
        lossCount := acc.lossCount + (if isLossB t then 1 else 0) } := by
  obtain ⟨i, dt, ty, st, am, no⟩ := t
  cases ty with
  | DEPOSIT => simp [statsStep, capDelta, tradeDelta, gpDelta, glDelta, isTradeB, isWinB, isLossB]
  | WITHDRAWAL =>
    simp [statsStep, capDelta, tradeDelta, gpDelta, glDelta, isTradeB, isWinB, isLossB]
    ring
  | TRADE =>
    simp only [statsStep, capDelta, tradeDelta, gpDelta, glDelta, isTradeB, isWinB, isLossB]
    split_ifs <;> simp_all <;> linarith

theorem foldl_statsStep (l : List Transaction) (a : StatsAcc) :
    l.foldl statsStep a =
      { investedCapital := a.investedCapital + investedCapitalOf l
        netProfit := a.netProfit + netProfitOf l
        tradeCount := a.tradeCount + tradeCountOf l
        grossProfit := a.grossProfit + grossProfitOf l
        grossLoss := a.grossLoss + grossLossOf l
        winCount := a.winCount + winCountOf l
        lossCount := a.lossCount + lossCountOf l } := by
  induction l generalizing a with
  | nil =>
    simp [investedCapitalOf, netProfitOf, tradeCountOf, grossProfitOf, grossLossOf,
      winCountOf, lossCountOf]
  | cons t l ih =>
    rw [List.foldl_cons, ih, statsStep_eq]
    simp only [investedCapitalOf, netProfitOf, tradeCountOf, grossProfitOf, grossLossOf,
      winCountOf, lossCountOf, List.countP_cons, List.map_cons, List.sum_cons,
      StatsAcc.mk.injEq]
    refine ⟨?_, ?_, ?_, ?_, ?_, ?_, ?_⟩ <;> ring

theorem statsAccOf_eq (l : List Transaction) :
    statsAccOf l =
      { investedCapital := investedCapitalOf l
        netProfit := netProfitOf l
        tradeCount := tradeCountOf l
        grossProfit := grossProfitOf l
        grossLoss := grossLossOf l
        winCount := winCountOf l
        lossCount := lossCountOf l } := by
  rw [statsAccOf, foldl_statsStep]
  simp

/-! ## View filtering (`filteredTransactions` in `src/unnamed/part_000`) -/

/-- The descending-by-date sort `[...txs].sort((a, b) => new Date(b.date).getTime()
- new Date(a.date).getTime())`.  On canonical `YYYY-MM-DD` keys (the data-model
invariant for `Transaction.date`) chronological order coincides with
lexicographic string order, so the comparator is `b.date ≤ a.date`. -/
def sortByDateDesc (txs : List Transaction) : List Transaction :=
  txs.mergeSort (fun a b => decide (b.date ≤ a.date))

def filteredTransactions (view : ViewType) (txs : List Transaction) : List Transaction :=
  sortByDateDesc
    (match view with
     | .OVERVIEW => txs
     | .strategy s => txs.filter (fun t => t.strategy == s))

/-! ## Per-day statistics (`getDayStats` in `src/unnamed/part_000`) -/

structure DayStats where
  date : String
  pl : ℚ
  transactions : List Transaction
  isProfit : Bool
  isLoss : Bool
  hasTrades : Bool
deriving DecidableEq, Repr

def getDayStats (txs : List Transaction) (dateStr : String) : DayStats :=
  let dayTx := txs.filter (fun t => t.date == dateStr)
  let pl := ((dayTx.filter (fun t => t.type == .TRADE)).map (fun t => t.amount)).sum
  { date := dateStr
    pl := pl
    transactions := dayTx
    isProfit := decide (pl > 0)
    isLoss := decide (pl < 0)
    hasTrades := dayTx.any (fun t => t.type == .TRADE) }

/-! ## Deletion (`window.deleteTransaction` in `src/unnamed/part_000`) -/

/-- `prev.filter(t => String(t.id) !== safeId)`; every `id` in the model is
already a string, so `String(·)` is the identity. -/
def deleteTransaction (id : String) (txs : List Transaction) : List Transaction :=
  txs.filter (fun t => t.id != id)

/-! ## Trade modal (`handleSubmit` in `src/unnamed/part_001`)

The form keeps `amount` as a raw string; on submit the guard `if (!amount)
return;` rejects exactly the empty string, and otherwise the payload carries
`parseFloat(amount)` — a JavaScript number that is `NaN` when the string has
no numeric prefix. -/

/-- A JavaScript number including its non-finite values. -/
inductive JSNum where
  | nan
  | posInf
  | negInf
  | fin (q : ℚ)
deriving DecidableEq, Repr

def digitsToNat (ds : List Char) : Nat :=
  ds.foldl (fun n c => 10 * n + (c.toNat - 48)) 0

/-- `parseFloat`'s exponent suffix (the part after `e`/`E`): an optional sign
followed by digits.  An incomplete exponent contributes nothing, exactly as
`parseFloat("1e") = 1` and `parseFloat("1e-") = 1`. -/
def parseExponent (cs : List Char) : Int :=
  let afterSign : Bool × List Char :=
    match cs with
    | '-' :: rest => (true, rest)
    | '+' :: rest => (false, rest)
    | rest => (false, rest)
  let ds := (afterSign.2.span (fun c => c.isDigit)).1
  if ds.isEmpty then 0
  else if afterSign.1 then -(digitsToNat ds : Int) else (digitsToNat ds : Int)

/-- `parseFloat`: optional sign, integer digits, optional fractional digits,
optional `e`/`E` exponent; `NaN` when no mantissa digit is found.  This covers
every string an `<input type="number">` can hold (the HTML valid
floating-point-number grammar); `Infinity` literals and surrounding
whitespace are not valid number-input values — the input sanitizes them to
the empty string — and are not modelled. -/
def jsParseFloat (s : String) : JSNum :=
  let afterSign : Bool × List Char :=
    match s.data with
    | '-' :: rest => (true, rest)
    | '+' :: rest => (false, rest)
    | cs => (false, cs)
  let intPart := afterSign.2.span (fun c => c.isDigit)
  let fracPart : List Char × List Char :=
    match intPart.2 with
    | '.' :: rest => rest.span (fun c => c.isDigit)
    | cs => ([], cs)
  if intPart.1.isEmpty ∧ fracPart.1.isEmpty then .nan
  else
    let expVal : Int :=
      match fracPart.2 with
      | 'e' :: rest => parseExponent rest
      | 'E' :: rest => parseExponent rest
      | _ => 0
    let mag : ℚ :=
      ((digitsToNat intPart.1 : ℚ)
          + (digitsToNat fracPart.1 : ℚ) / (10 ^ fracPart.1.length : ℚ))
        * (10 : ℚ) ^ expVal
    .fin (if afterSign.1 then -mag else mag)

/-- The modal's form state relevant to `handleSubmit`. -/
structure FormState where
  type : TransactionType
  strategy : StrategyType
  amount : String
  note : String
deriving DecidableEq, Repr

/-- A stored transaction whose amount is a raw JavaScript number (so that a
`NaN` produced by `parseFloat` can be represented). -/
structure JSTransaction where
  id : String
  date : String
  type : TransactionType
  strategy : StrategyType
  amount : JSNum
  note : String
deriving DecidableEq, Repr

/-- `handleSubmit`: `if (!amount) return;` then `onSave({date, type, strategy,
amount: parseFloat(amount), note})`.  Returns the saved payload, or `none`
when the submission is rejected. -/
def handleSubmit (form : FormState) (selectedDate : String) : Option JSTransaction :=
  if form.amount = "" then none
  else some { id := ""
              date := selectedDate
              type := form.type
              strategy := form.strategy
              amount := jsParseFloat form.amount
              note := form.note }

/-- `handleSubmit` followed by `handleSaveTransaction` (`setTransactions(prev
=> [...prev, newTx])` with a freshly generated id). -/
def submitTransaction (form : FormState) (selectedDate newId : String)
    (txs : List JSTransaction) : List JSTransaction :=
  match handleSubmit form selectedDate with
  | none => txs
  | some p => txs ++ [{ p with id := newId }]

/-! ## Percentage formatting (`formatPercentage` in `src/unnamed/part_000`)

`Intl.NumberFormat('en-US', {style: 'percent', minimumFractionDigits: 2,
maximumFractionDigits: 2})` displays `x` as `x * 100` rounded half-away-from-zero
to two decimals, with `,` thousands grouping and a trailing `%`. -/

def digitChar (n : Nat) : Char := Char.ofNat (48 + n)

def pad2digits (n : Nat) : String :=
  String.mk [digitChar (n / 10), digitChar (n % 10)]

def pad3digits (n : Nat) : String :=
  String.mk [digitChar (n / 100), digitChar (n / 10 % 10), digitChar (n % 10)]

/-- Decimal digits of `n` in `en-US` grouping (`,` every three digits). -/
def groupDigits (n : Nat) : String :=
  if _h : n < 1000 then toString n
  else groupDigits (n / 1000) ++ "," ++ pad3digits (n % 1000)
termination_by n
decreasing_by exact Nat.div_lt_self (by omega) (by omega)

/-- `|q|` in hundredths, rounded half away from zero. -/
def roundHundredths (q : ℚ) : Nat :=
  (⌊|q| * 100 + 1 / 2⌋).toNat

/-- Fixed-point rendering with exactly two decimals and grouping. -/
def formatFixed2 (q : ℚ) : String :=
  (if q < 0 then "-" else "")
    ++ groupDigits (roundHundredths q / 100) ++ "." ++ pad2digits (roundHundredths q % 100)

/-- The `Intl` percent formatter used by the source. -/
def intlFormatPercent2 (x : ℚ) : String :=
  formatFixed2 (x * 100) ++ "%"

/-- `formatPercentage`: non-finite input short-circuits to `"0.00%"`; a finite
value is divided by 100 and handed to the percent formatter. -/
def formatPercentage (value : JSNum) : String :=
  match value with
  | .nan => "0.00%"
  | .posInf => "0.00%"
  | .negInf => "0.00%"
  | .fin q => intlFormatPercent2 (q / 100)

/-! ## Shared helper lemmas -/

theorem statsAccOf_congr_perm {l₁ l₂ : List Transaction} (h : l₁.Perm l₂) :
    statsAccOf l₁ = statsAccOf l₂ := by
  rw [statsAccOf_eq, statsAccOf_eq]
  simp only [investedCapitalOf, netProfitOf, tradeCountOf, grossProfitOf, grossLossOf,
    winCountOf, lossCountOf, (h.map capDelta).sum_eq, (h.map tradeDelta).sum_eq,
    (h.map gpDelta).sum_eq, (h.map glDelta).sum_eq, h.countP_eq]

theorem stats_congr_perm {l₁ l₂ : List Transaction} (h : l₁.Perm l₂) :
    stats l₁ = stats l₂ := by
  unfold stats
  rw [statsAccOf_congr_perm h]

theorem stats_sortByDateDesc (l : List Transaction) :
    stats (sortByDateDesc l) = stats l :=
  stats_congr_perm (List.mergeSort_perm l _)

/-! ## Claim theorems -/

/-- C1: for every reference date (year, 0-based month < 12),
`generateCalendarDays` emits `getFirstDayOfMonth` leading blanks, one
numbered slot per day `1..daysInMonth` carrying its canonical ISO date key,
and then `42 - total` trailing blanks exactly when `42 - total < 7` (none
otherwise), so the grid length is exactly 42 or strictly fewer. -/
theorem generateCalendarDays_spec (y m : Nat) (_hm : m < 12) :
    generateCalendarDays y m
      = List.replicate (getFirstDayOfMonth y m) blankSlot
        ++ (List.range (getDaysInMonth y m)).map
            (fun i => { day := some (i + 1), dateStr := some (formatDateISO y m (i + 1)) })
        ++ List.replicate (trailingBlanks y m) blankSlot
    ∧ ((generateCalendarDays y m).length = 42 ∨ (generateCalendarDays y m).length < 42) := by
  have hf : getFirstDayOfMonth y m < 7 := getFirstDayOfMonth_lt y m
  have hd : getDaysInMonth y m ≤ 31 := monthLength_le _ _
  simp only [generateCalendarDays, trailingBlanks, List.length_append,
    List.length_replicate, List.length_map, List.length_range]
  constructor
  · split_ifs with h
    · rw [List.append_assoc]
    · simp
  · split_ifs with h
    · left
      simp only [List.length_append, List.length_replicate, List.length_map, List.length_range]
      omega
    · right
      simp only [List.length_append, List.length_replicate, List.length_map, List.length_range]
      omega

theorem generateCalendarDays_spec_witness :
    9 < 12
    ∧ ((generateCalendarDays 2026 9).length = 42 ∨ (generateCalendarDays 2026 9).length < 42) :=
  ⟨by decide, (generateCalendarDays_spec 2026 9 (by decide)).2⟩

/-- C2: `profitFactor` equals `grossProfit / grossLoss` when `grossLoss > 0`,
is `+Infinity` when `grossLoss = 0 < grossProfit`, and is `0` when both
vanish; both gross sums are nonnegative, so this covers every case and the
metric is always a defined value. -/
theorem profitFactor_spec (txs : List Transaction) :
    0 ≤ grossProfitOf txs ∧ 0 ≤ grossLossOf txs
    ∧ (stats txs).profitFactor =
        (if grossLossOf txs > 0 then .finite (grossProfitOf txs / grossLossOf txs)
         else if grossProfitOf txs > 0 then .posInf
         else .finite 0) := by
  refine ⟨List.sum_nonneg ?_, List.sum_nonneg ?_, ?_⟩
  · intro x hx
    simp only [List.mem_map] at hx
    obtain ⟨t, _, rfl⟩ := hx
    unfold gpDelta
    split_ifs with h
    · exact le_of_lt h.2
    · exact le_refl 0
  · intro x hx
    simp only [List.mem_map] at hx
    obtain ⟨t, _, rfl⟩ := hx
    unfold glDelta
    split_ifs with h
    · exact abs_nonneg _
    · exact le_refl 0
  · simp only [stats, statsAccOf_eq]

/-- C3: a TRADE of amount exactly 0 bumps `tradeCount` and leaves the capital,
profit and win/loss accumulators untouched; the singleton list of such a
trade aggregates to `tradeCount = 1`, `winCount = 0`, `lossCount = 0`,
`winRate = 0`. -/
theorem zeroAmountTrade_spec (acc : StatsAcc) (t : Transaction)
    (ht : t.type = .TRADE) (h0 : t.amount = 0) :
    statsStep acc t = { acc with tradeCount := acc.tradeCount + 1 }
    ∧ statsAccOf [t] =
        { investedCapital := 0, netProfit := 0, tradeCount := 1,
          grossProfit := 0, grossLoss := 0, winCount := 0, lossCount := 0 }
    ∧ (stats [t]).tradeCount = 1 ∧ (stats [t]).winRate = 0 := by
  refine ⟨?_, ?_, ?_, ?_⟩ <;>
    simp [stats, statsAccOf, statsStep, ht, h0]

theorem zeroAmountTrade_spec_witness :
    (stats [⟨"z1", "2024-03-05", .TRADE, .OPTIONS, 0, none⟩]).tradeCount = 1
    ∧ (stats [⟨"z1", "2024-03-05", .TRADE, .OPTIONS, 0, none⟩]).winRate = 0 :=
  ⟨(zeroAmountTrade_spec ⟨0, 0, 0, 0, 0, 0, 0⟩ _ rfl rfl).2.2.1,
   (zeroAmountTrade_spec ⟨0, 0, 0, 0, 0, 0, 0⟩ _ rfl rfl).2.2.2⟩

/-- C4: `portfolioValue = investedCapital + netProfit` for every list, `roi`
is the 100-scaled quotient guarded to exactly 0 at zero invested capital, and
the empty list aggregates to all-zero metrics. -/
theorem statsDerived_spec (txs : List Transaction) :
    (stats txs).portfolioValue = (stats txs).investedCapital + (stats txs).netProfit
    ∧ (stats txs).roi =
        (if (stats txs).investedCapital ≠ 0
         then (stats txs).netProfit / (stats txs).investedCapital * 100 else 0)
    ∧ (stats []).investedCapital = 0 ∧ (stats []).netProfit = 0 ∧ (stats []).roi = 0
    ∧ (stats []).winRate = 0 ∧ (stats []).profitFactor = .finite 0
    ∧ (stats []).tradeCount = 0 := by
  refine ⟨rfl, rfl, ?_, ?_, ?_, ?_, ?_, ?_⟩ <;> decide

/-- C5: `getDayStats` sums exactly the TRADE amounts dated at the key,
derives `isProfit`/`isLoss` from the sign of that sum, and sets `hasTrades`
precisely when some TRADE is dated at the key; a zero-net day therefore has
`isProfit = isLoss = false` regardless of `hasTrades`. -/
theorem getDayStats_spec (txs : List Transaction) (key : String) :
    (getDayStats txs key).pl
      = ((txs.filter (fun t => t.type == .TRADE && t.date == key)).map (fun t => t.amount)).sum
    ∧ (getDayStats txs key).isProfit = decide ((getDayStats txs key).pl > 0)
    ∧ (getDayStats txs key).isLoss = decide ((getDayStats txs key).pl < 0)
    ∧ ((getDayStats txs key).hasTrades = true ↔ ∃ t ∈ txs, t.type = .TRADE ∧ t.date = key)
    ∧ ((getDayStats txs key).pl = 0 →
        (getDayStats txs key).isProfit = false ∧ (getDayStats txs key).isLoss = false) := by
  refine ⟨?_, rfl, rfl, ?_, ?_⟩
  · simp only [getDayStats, List.filter_filter]
  · simp only [getDayStats, List.any_eq_true, List.mem_filter, beq_iff_eq]
    constructor
    · rintro ⟨t, ⟨htx, hdate⟩, hty⟩
      exact ⟨t, htx, hty, hdate⟩
    · rintro ⟨t, htx, hty, hdate⟩
      exact ⟨t, ⟨htx, hdate⟩, hty⟩
  · intro h
    constructor <;> simp [getDayStats] at h ⊢ <;> simp [h]

theorem getDayStats_spec_witness :
    (getDayStats [⟨"a", "2024-01-02", .TRADE, .SWING, 5, none⟩,
                  ⟨"b", "2024-01-02", .TRADE, .SWING, -5, none⟩] "2024-01-02").isProfit = false
    ∧ (getDayStats [⟨"a", "2024-01-02", .TRADE, .SWING, 5, none⟩,
                    ⟨"b", "2024-01-02", .TRADE, .SWING, -5, none⟩] "2024-01-02").isLoss = false :=
  (getDayStats_spec
    [⟨"a", "2024-01-02", .TRADE, .SWING, 5, none⟩,
     ⟨"b", "2024-01-02", .TRADE, .SWING, -5, none⟩] "2024-01-02").2.2.2.2
    (by norm_num [getDayStats])

/-- C6: aggregating the strategy-`s` view equals aggregating the sublist with
`strategy == s`, and aggregating the OVERVIEW view equals aggregating the
whole unfiltered list (the view's descending-by-date sort is immaterial). -/
theorem filteredStats_spec (txs : List Transaction) (s : StrategyType) :
    stats (filteredTransactions (.strategy s) txs)
      = stats (txs.filter (fun t => t.strategy == s))
    ∧ stats (filteredTransactions .OVERVIEW txs) = stats txs :=
  ⟨stats_sortByDateDesc _, stats_sortByDateDesc _⟩

/-- C7 counterexample: the guard `if (!amount) return;` rejects only the empty
string, so the non-numeric input `"abc"` passes it and a transaction with
amount `parseFloat("abc") = NaN` is appended — the list does change. -/
theorem handleSubmit_nonNumeric_counterexample :
    jsParseFloat "abc" = JSNum.nan
    ∧ submitTransaction ⟨.TRADE, .DAY_TRADE, "abc", ""⟩ "2024-01-01" "id1" []
        = [⟨"id1", "2024-01-01", .TRADE, .DAY_TRADE, JSNum.nan, ""⟩]
    ∧ (submitTransaction ⟨.TRADE, .DAY_TRADE, "abc", ""⟩ "2024-01-01" "id1" []).length ≠ 0 := by
  refine ⟨?_, ?_, ?_⟩ <;> decide

/-- C7 (amended): a submission is rejected — no transaction created, list
unchanged — exactly when the amount string is empty (the value a number input
reports for unparsable text); any non-empty amount string is saved with
amount `parseFloat(amount)`, which is `NaN` for non-numeric text. -/
theorem handleSubmit_guard_spec (form : FormState) (d newId : String)
    (txs : List JSTransaction) :
    (form.amount = "" →
      handleSubmit form d = none ∧ submitTransaction form d newId txs = txs)
    ∧ (form.amount ≠ "" →
      submitTransaction form d newId txs
        = txs ++ [⟨newId, d, form.type, form.strategy, jsParseFloat form.amount, form.note⟩]) := by
  constructor
  · intro h
    exact ⟨by simp [handleSubmit, h], by simp [submitTransaction, handleSubmit, h]⟩
  · intro h
    simp [submitTransaction, handleSubmit, h]

theorem handleSubmit_guard_spec_witness :
    submitTransaction ⟨.TRADE, .DAY_TRADE, "", "n"⟩ "2024-01-01" "i1" [] = []
    ∧ submitTransaction ⟨.TRADE, .DAY_TRADE, "150", "n"⟩ "2024-01-01" "i1" []
        = [⟨"i1", "2024-01-01", .TRADE, .DAY_TRADE, jsParseFloat "150", "n"⟩] :=
  ⟨((handleSubmit_guard_spec ⟨.TRADE, .DAY_TRADE, "", "n"⟩ "2024-01-01" "i1" []).1 rfl).2,
   (handleSubmit_guard_spec ⟨.TRADE, .DAY_TRADE, "150", "n"⟩ "2024-01-01" "i1" []).2 (by decide)⟩

/-- C8: deleting an id that occurs nowhere in the list returns the list
itself — identical length and contents, no error. -/
theorem deleteTransaction_spec (id : String) (txs : List Transaction)
    (h : id ∉ txs.map (fun t => t.id)) :
    deleteTransaction id txs = txs := by
  rw [deleteTransaction, List.filter_eq_self]
  intro t ht
  simp only [bne_iff_ne, ne_eq]
  intro hEq
  exact h (List.mem_map.mpr ⟨t, ht, hEq⟩)

theorem deleteTransaction_spec_witness :
    deleteTransaction "missing" [⟨"a", "2024-01-01", .DEPOSIT, .SWING, 100, none⟩]
      = [⟨"a", "2024-01-01", .DEPOSIT, .SWING, 100, none⟩] :=
  deleteTransaction_spec "missing" _ (by decide)

/-- C9: `formatPercentage` yields exactly `"0.00%"` on every non-finite
input; on a finite input it feeds `value / 100` to the two-decimal percent
formatter, whose output always carries exactly two digits after the decimal
point and a trailing `%`. -/
theorem formatPercentage_spec :
    formatPercentage .nan = "0.00%"
    ∧ formatPercentage .posInf = "0.00%"
    ∧ formatPercentage .negInf = "0.00%"
    ∧ ∀ q : ℚ, formatPercentage (.fin q) = intlFormatPercent2 (q / 100)
        ∧ ∃ w f, formatPercentage (.fin q) = w ++ "." ++ f ++ "%" ∧ f.length = 2 := by
  refine ⟨rfl, rfl, rfl, fun q => ⟨rfl, ?_⟩⟩
  exact ⟨(if q / 100 * 100 < 0 then "-" else "")
            ++ groupDigits (roundHundredths (q / 100 * 100) / 100),
         pad2digits (roundHundredths (q / 100 * 100) % 100), rfl, rfl⟩

/-- C10: `stats` is invariant under every permutation of the transaction
list, so the descending-by-date sort applied to a view before aggregation
never changes any metric. -/
theorem stats_perm_spec (l₁ l₂ : List Transaction) (h : l₁.Perm l₂) :
    stats l₁ = stats l₂
    ∧ ∀ v : ViewType, ∀ l : List Transaction,
        stats (filteredTransactions v l)
          = stats (match v with
                   | .OVERVIEW => l
                   | .strategy s => l.filter (fun t => t.strategy == s)) :=
  ⟨stats_congr_perm h, fun v l => by cases v <;> exact stats_sortByDateDesc _⟩

theorem stats_perm_spec_witness :
    stats [⟨"a", "2024-01-01", .DEPOSIT, .SWING, 100, none⟩,
           ⟨"b", "2024-01-02", .TRADE, .OPTIONS, -25, none⟩]
      = stats [⟨"b", "2024-01-02", .TRADE, .OPTIONS, -25, none⟩,
               ⟨"a", "2024-01-01", .DEPOSIT, .SWING, 100, none⟩] :=
  (stats_perm_spec _ _ (List.Perm.swap _ _ _)).1
